import Mathlib

/-!
Verification development for a message-export CLI tool (Rust, `src/main.rs`).

The tool reads message and handle rows from a local database, filters messages
by a `[start, end]` range of nanosecond offsets from the 2001-01-01T00:00:00Z
reference epoch and by an optional only-from-me flag, resolves the two
endpoints of each message through an in-memory handle map, and writes the
projected records to an output file.

The shallow embedding below models:
* `parse_date` including the chrono `%Y-%m-%d` parser it calls
  (`scanNumber`, `parseLit`, `parseFmtYMD`, `parseYMD`) and the
  `DateTime<Utc>` values it produces (as mathematical integers counting
  nanoseconds since the Unix epoch);
* the nanosecond-offset conversion `(date - imessage_epoch).num_nanoseconds().unwrap_or(0)`;
* the handle map (`buildHandleMap`, `handleMapGet`);
* the per-message loop body (`processMsg`) and the whole loop (`processMessages`),
  with `panic` as an explicit outcome of the unchecked `DateTime + Duration`;
* the whole `main` pipeline (`mainRun`), with the file write modelled as an
  explicit effect list (JSON rendering itself is delegated to serde_json by
  the source and is out of scope, so the write records the projected list).
-/

/-- Fixed-width integer bounds used by the Rust code (i64 / i32). -/
def i64Max : Int := 9223372036854775807

def i64Min : Int := -9223372036854775808

def i32Max : Int := 2147483647

def i32Min : Int := -2147483648

/-- Predicate stating that `n` fits in a signed 64-bit integer. -/
def i64Range (n : Int) : Prop := i64Min ≤ n ∧ n ≤ i64Max

instance (n : Int) : Decidable (i64Range n) := by unfold i64Range; infer_instance

/-- Errors of chrono's date parser, with the display strings chrono attaches
to them (`ParseErrorKind` and its `fmt::Display`). -/
inductive ParseErr where
  | outOfRange
  | impossible
  | notEnough
  | invalid
  | tooShort
  | tooLong
  | badFormat
deriving DecidableEq, Repr

/-- Display output of a chrono `ParseError` for each error kind. -/
def ParseErr.display : ParseErr → String
  | .outOfRange => "input is out of range"
  | .impossible => "no possible date and time matching input"
  | .notEnough => "input is not enough for unique date and time"
  | .invalid => "input contains invalid characters"
  | .tooShort => "premature end of input"
  | .tooLong => "trailing input"
  | .badFormat => "bad or unsupported format string"

/-- Rust `char::is_whitespace` (Unicode White_Space property), used by
`str::trim_start` which chrono applies before each numeric field. -/
def rustIsWs (c : Char) : Bool :=
  c == ' ' || c == '\t' || c == '\n' || c == '\r' ||
  c.toNat == 0x0B || c.toNat == 0x0C || c.toNat == 0x85 || c.toNat == 0xA0 ||
  c.toNat == 0x1680 || (0x2000 ≤ c.toNat && c.toNat ≤ 0x200A) ||
  c.toNat == 0x2028 || c.toNat == 0x2029 || c.toNat == 0x202F ||
  c.toNat == 0x205F || c.toNat == 0x3000

/-- chrono's `s.trim_left()` on the remaining input. -/
def trimLeft (s : List Char) : List Char := s.dropWhile rustIsWs

/-- Core of chrono's `scan::number`: consume up to `rem` more ASCII digits
(having already consumed `i`), accumulating into the `i64` accumulator `acc`
with checked arithmetic. Stopping at a non-digit before `mn` digits were seen
is `INVALID`; exceeding `i64::MAX` is `OUT_OF_RANGE`. -/
def scanCore (mn : Nat) : List Char → Nat → Nat → Int → Except ParseErr (List Char × Int)
  | s, _, 0, acc => .ok (s, acc)
  | [], _, _+1, acc => .ok ([], acc)
  | c :: cs, i, rem+1, acc =>
    if c.isDigit then
      let acc2 := acc * 10 + ((c.toNat - 48 : Nat) : Int)
      if i64Max < acc2 then .error ParseErr.outOfRange
      else scanCore mn cs (i+1) rem acc2
    else if i < mn then .error ParseErr.invalid
    else .ok (c :: cs, acc)

/-- chrono `scan::number(s, min, max)`: at least `mn` and at most `mx` ASCII
digits (`mx = none` models `usize::MAX`, i.e. no upper bound); an input
shorter than `mn` is `TOO_SHORT`. -/
def scanNumber (s : List Char) (mn : Nat) (mx : Option Nat) : Except ParseErr (List Char × Int) :=
  if s.length < mn then .error ParseErr.tooShort
  else scanCore mn s 0 (mx.getD s.length) 0

/-- chrono's parsing of a one-character `Literal` format item (`TOO_SHORT` on
empty input, `INVALID` on mismatch). -/
def parseLit (c : Char) (s : List Char) : Except ParseErr (List Char) :=
  match s with
  | [] => .error ParseErr.tooShort
  | x :: rest => if x = c then .ok rest else .error ParseErr.invalid

/-- chrono's `Numeric(Year)` field: trim leading whitespace, then either an
explicit sign followed by an unbounded digit run, or at most 4 digits. -/
def parseYearField (s : List Char) : Except ParseErr (List Char × Int) :=
  match trimLeft s with
  | [] => .error ParseErr.tooShort
  | c :: rest =>
    if c = '-' then
      match scanNumber rest 1 none with
      | .error e => .error e
      | .ok (s2, v) => .ok (s2, -v)
    else if c = '+' then scanNumber rest 1 none
    else scanNumber (c :: rest) 1 (some 4)

/-- chrono's `parse` of the format string `%Y-%m-%d`: year field, literal `-`,
two-digit month, literal `-`, two-digit day, then the input must be exhausted
(`TOO_LONG` otherwise). The year must fit in an `i32` (`Parsed::set_year`). -/
def parseFmtYMD (s : List Char) : Except ParseErr (Int × Int × Int) :=
  match parseYearField s with
  | .error e => .error e
  | .ok (s1, y) =>
    if y < i32Min ∨ i32Max < y then .error ParseErr.outOfRange
    else
      match parseLit '-' s1 with
      | .error e => .error e
      | .ok s2 =>
        match scanNumber (trimLeft s2) 1 (some 2) with
        | .error e => .error e
        | .ok (s3, m) =>
          match parseLit '-' s3 with
          | .error e => .error e
          | .ok s4 =>
            match scanNumber (trimLeft s4) 1 (some 2) with
            | .error e => .error e
            | .ok (s5, d) =>
              if s5 = [] then .ok (y, m, d) else .error ParseErr.tooLong

/-- Proleptic-Gregorian leap year, as chrono computes it. -/
def isLeapYear (y : Int) : Bool := y % 4 == 0 && (y % 100 != 0 || y % 400 == 0)

/-- Number of days in month `m` of year `y` (0 for an invalid month index). -/
def daysInMonth (y m : Int) : Int :=
  if m = 1 ∨ m = 3 ∨ m = 5 ∨ m = 7 ∨ m = 8 ∨ m = 10 ∨ m = 12 then 31
  else if m = 4 ∨ m = 6 ∨ m = 9 ∨ m = 11 then 30
  else if m = 2 then (if isLeapYear y then 29 else 28)
  else 0

/-- Success condition of chrono's `NaiveDate::from_ymd_opt`, applied by
`Parsed::to_naive_date` after the fields are read: the year is within
`NaiveDate`'s representable range and the month/day denote a real calendar
day. -/
def fromYmdValid (y m d : Int) : Bool :=
  decide (-262144 ≤ y) && decide (y ≤ 262143) &&
  decide (1 ≤ m) && decide (m ≤ 12) &&
  decide (1 ≤ d) && decide (d ≤ daysInMonth y m)

/-- chrono `NaiveDate::parse_from_str(s, "%Y-%m-%d")`: syntactic parse of the
three fields followed by calendar validation. -/
def parseYMD (s : List Char) : Except ParseErr (Int × Int × Int) :=
  match parseFmtYMD s with
  | .error e => .error e
  | .ok (y, m, d) => if fromYmdValid y m d then .ok (y, m, d) else .error ParseErr.outOfRange

/-- Days from 1970-01-01 to the civil date `y-m-d` in the proleptic Gregorian
calendar (floor divisions throughout). -/
def daysFromCivil (y m d : Int) : Int :=
  let yy := if m ≤ 2 then y - 1 else y
  let era := Int.fdiv yy 400
  let yoe := yy - era * 400
  let mp := Int.emod (m + 9) 12
  let doy := Int.fdiv (153 * mp + 2) 5 + d - 1
  let doe := yoe * 365 + Int.fdiv yoe 4 - Int.fdiv yoe 100 + doy
  era * 146097 + doe - 719468

/-- The instant (nanoseconds since the Unix epoch) of midnight UTC on the
civil day `y-m-d`: the `DateTime<Utc>` that `parse_date` builds with
`date.and_hms_opt(0, 0, 0)` and `DateTime::from_naive_utc_and_offset`. -/
def midnightUtcNs (y m d : Int) : Int := daysFromCivil y m d * 86400 * 1000000000

/-- The application's error type (`enum AppError`). The `Table` and `Io`
payloads are opaque to every claim, so they are not carried. -/
inductive AppError where
  | Table
  | IoError
  | Args (msg : String)
deriving DecidableEq, Repr

/-- Function `parse_date` from `src/main.rs`: parse as `%Y-%m-%d`, map a chrono error
to `AppError::Args` with the formatted message
`"Invalid date format: {e}. Expected YYYY-MM-DD"`, and map a parsed date to
midnight UTC of that day. -/
def parse_date (s : String) : Except AppError Int :=
  match parseYMD s.data with
  | .error e =>
    .error (AppError.Args ("Invalid date format: " ++ ParseErr.display e ++ ". Expected YYYY-MM-DD"))
  | .ok (y, m, d) => .ok (midnightUtcNs y m d)

/-- Nanosecond offset of the reference epoch 2001-01-01T00:00:00Z
(`imessage_epoch`) from the Unix epoch. -/
def epoch2001UnixNs : Int := 978307200 * 1000000000

/-- Nanoseconds in one day; `Duration::days(7)` is `7 * nsPerDay`. -/
def nsPerDay : Int := 86400 * 1000000000

/-- chrono `TimeDelta::num_nanoseconds`: `some` exactly when the exact
nanosecond count of the difference fits in an `i64`. -/
def numNanoseconds (d : Int) : Option Int :=
  if i64Min ≤ d ∧ d ≤ i64Max then some d else none

/-- Model of `(date - imessage_epoch).num_nanoseconds().unwrap_or(0)` from `main`. -/
def dateToNsOffset (t : Int) : Int :=
  (numNanoseconds (t - epoch2001UnixNs)).getD 0

/-- Earliest instant representable by a chrono `NaiveDateTime`
(midnight of `NaiveDate::MIN`, year -262144). -/
def minDateTimeNs : Int := daysFromCivil (-262144) 1 1 * 86400 * 1000000000

/-- Latest instant representable by a chrono `NaiveDateTime`
(last nanosecond of `NaiveDate::MAX`, year 262143). -/
def maxDateTimeNs : Int :=
  (daysFromCivil 262143 12 31 * 86400 + 86399) * 1000000000 + 999999999

/-- chrono `DateTime<Utc> + Duration`: `checked_add_signed` under the hood,
which the `Add` impl unwraps with `expect` — `none` here models the panic on
an out-of-range result. -/
def checkedAddNs (t ns : Int) : Option Int :=
  if minDateTimeNs ≤ t + ns ∧ t + ns ≤ maxDateTimeNs then some (t + ns) else none

/-- chrono `DateTime::timestamp`: whole seconds since the Unix epoch
(floor of the nanosecond instant). -/
def timestampSec (t : Int) : Int := Int.fdiv t 1000000000

/-- A handle row: internal rowid and external identifier string. -/
structure Handle where
  rowid : Int
  id : String
deriving DecidableEq, Repr

/-- A message row as `main` consumes it. `text_ok` models whether the external
`generate_text(&db)` call succeeds, and `text` the value of `msg.text` after
that call. -/
structure Message where
  rowid : Int
  date : Int
  text_ok : Bool
  text : Option String
  is_from_me : Bool
  handle_id : Option Int
  destination_caller_id : Option String
deriving DecidableEq, Repr

/-- The projected record `main` pushes for each qualifying message
(`MessageData` plus the `timestamp()` conversion applied at JSON-build time). -/
structure OutputRecord where
  id : Int
  date : Int
  text : Option String
  from' : Option String
  to' : Option String
  from_me : Bool
deriving DecidableEq, Repr

/-- The handle-map `HashMap`: rows whose decoding failed (`None`) are skipped;
`insert` makes the latest row with a given rowid win, which the front-biased
association list reproduces under `handleMapGet`. -/
def buildHandleMap (rows : List (Option Handle)) : List (Int × String) :=
  rows.foldl (fun acc h => match h with | none => acc | some h => (h.rowid, h.id) :: acc) []

/-- Lookup `handle_map.get(&id).cloned()`. -/
def handleMapGet (m : List (Int × String)) (k : Int) : Option String :=
  (m.find? (fun p => p.1 == k)).map (fun p => p.2)

/-- The record built for an included message `m`: timestamp from
`imessage_epoch + Duration::nanoseconds(msg.date)`, endpoints resolved by the
direction rule on `is_from_me`. -/
def mkRecord (hmap : Int → Option String) (m : Message) : OutputRecord :=
  { id := m.rowid
    date := timestampSec (epoch2001UnixNs + m.date)
    text := m.text
    from' := if m.is_from_me then m.destination_caller_id else m.handle_id.bind hmap
    to' := if m.is_from_me then m.handle_id.bind hmap else m.destination_caller_id
    from_me := m.is_from_me }

/-- Outcome of one iteration of the message loop for a row that extracted
successfully. -/
inductive MsgOutcome where
  | panic
  | dropped
  | emitted (r : OutputRecord)
deriving DecidableEq, Repr

/-- One iteration of the message loop in `main`: drop the message if
`generate_text` fails; compute `message_date = imessage_epoch +
Duration::nanoseconds(msg.date)` (a potential panic) before the filter; then
test `msg.date >= start_ns && msg.date <= end_ns && (!only_from_me ||
msg.is_from_me)` and emit the projected record on success. -/
def processMsg (hmap : Int → Option String) (startNs endNs : Int) (only_from_me : Bool)
    (m : Message) : MsgOutcome :=
  if !m.text_ok then .dropped
  else
    match checkedAddNs epoch2001UnixNs m.date with
    | none => .panic
    | some messageDate =>
      if decide (startNs ≤ m.date) && decide (m.date ≤ endNs) &&
          (!only_from_me || m.is_from_me) then
        .emitted
          { id := m.rowid
            date := timestampSec messageDate
            text := m.text
            from' := if m.is_from_me then m.destination_caller_id else m.handle_id.bind hmap
            to' := if m.is_from_me then m.handle_id.bind hmap else m.destination_caller_id
            from_me := m.is_from_me }
      else .dropped

/-- Result of the whole message loop: a row whose extraction fails aborts with
a table error (`Message::extract(message_result)?`), a panic aborts the
process, otherwise the projected records accumulate in source order. -/
inductive RunResult where
  | tableError
  | panicked
  | ok (records : List OutputRecord)
deriving DecidableEq, Repr

/-- The message loop of `main` over the extracted row results. -/
def processMessages (hmap : Int → Option String) (startNs endNs : Int)
    (only_from_me : Bool) : List (Except Unit Message) → RunResult
  | [] => .ok []
  | .error _ :: _ => .tableError
  | .ok m :: rest =>
    match processMsg hmap startNs endNs only_from_me m with
    | .panic => .panicked
    | .dropped => processMessages hmap startNs endNs only_from_me rest
    | .emitted r =>
      match processMessages hmap startNs endNs only_from_me rest with
      | .ok rs => .ok (r :: rs)
      | other => other

/-- The command-line arguments (`struct Args`). -/
structure Args where
  output_file : String
  start_date : Option String
  end_date : Option String
  only_from_me : Bool
deriving DecidableEq, Repr

/-- Model of `args.start_date.map(parse_date).transpose()?.unwrap_or_else(|| Utc::now()
- Duration::days(7))`; `now1` is the value `Utc::now()` would return at that
point. -/
def resolveStart (sd : Option String) (now1 : Int) : Except AppError Int :=
  match sd with
  | some s => parse_date s
  | none => .ok (now1 - 7 * nsPerDay)

/-- Model of `args.end_date.map(parse_date).transpose()?.unwrap_or_else(Utc::now)`;
`now2` is the value of that later `Utc::now()` call. -/
def resolveEnd (ed : Option String) (now2 : Int) : Except AppError Int :=
  match ed with
  | some s => parse_date s
  | none => .ok now2

/-- Date resolution in `main`: start first (its error propagates before the
end date is looked at), then end. -/
def resolveDates (sd ed : Option String) (now1 now2 : Int) : Except AppError (Int × Int) :=
  match resolveStart sd now1 with
  | .error e => .error e
  | .ok s =>
    match resolveEnd ed now2 with
    | .error e => .error e
    | .ok e2 => .ok (s, e2)

/-- The whole `main` pipeline as a function of its environment: the
connection attempt, the two `Utc::now()` samples, the handle rows, the
extracted message rows and the filesystem outcome. The second component of
the result lists the file writes performed (path and projected records; the
JSON rendering is serde_json's and out of scope); `none` models a panic. -/
def mainRun (args : Args) (now1 now2 : Int)
    (conn : Except Unit Unit)
    (handleRows : Except Unit (List (Option Handle)))
    (msgRows : Except Unit (List (Except Unit Message)))
    (fsOk : Bool) :
    Option (Except AppError Unit × List (String × List OutputRecord)) :=
  match conn with
  | .error _ => some (.error AppError.Table, [])
  | .ok _ =>
    match resolveDates args.start_date args.end_date now1 now2 with
    | .error e => some (.error e, [])
    | .ok (startDate, endDate) =>
      let startNs := dateToNsOffset startDate
      let endNs := dateToNsOffset endDate
      match handleRows with
      | .error _ => some (.error AppError.Table, [])
      | .ok hrows =>
        let hmap := buildHandleMap hrows
        match msgRows with
        | .error _ => some (.error AppError.Table, [])
        | .ok mrows =>
          match processMessages (handleMapGet hmap) startNs endNs args.only_from_me mrows with
          | .tableError => some (.error AppError.Table, [])
          | .panicked => none
          | .ok records =>
            if fsOk then some (.ok (), [(args.output_file, records)])
            else some (.error AppError.IoError, [])

/-- The inclusion condition of the message loop, as a single boolean:
text decodes, raw offset within `[startNs, endNs]`, and the only-from-me
filter passes. -/
def includeCond (startNs endNs : Int) (only_from_me : Bool) (m : Message) : Bool :=
  m.text_ok && (decide (startNs ≤ m.date) && decide (m.date ≤ endNs) &&
    (!only_from_me || m.is_from_me))

/-- The character for the decimal digit `k`. -/
def natDigitChar (k : Nat) : Char := Char.ofNat (48 + k)

/-- Rendering of `n` as exactly `w` decimal digits (zero-padded, keeping the low
`w` digits): the canonical `YYYY` / `MM` / `DD` rendering. -/
def padNum : Nat → Nat → List Char
  | 0, _ => []
  | w+1, n => natDigitChar (n / 10^w % 10) :: padNum w n

/-- A date string in strict zero-padded `YYYY-MM-DD` form. -/
def fmtYMD (y m d : Nat) : String :=
  ⟨padNum 4 y ++ '-' :: (padNum 2 m ++ '-' :: padNum 2 d)⟩

/-! ### Shared helper lemmas -/

theorem minDateTimeNs_eq : minDateTimeNs = -8334632851200000000000 := by decide

theorem maxDateTimeNs_eq : maxDateTimeNs = 8210298412799999999999 := by decide

theorem add_epoch_in_range (d : Int) (h : i64Range d) :
    minDateTimeNs ≤ epoch2001UnixNs + d ∧ epoch2001UnixNs + d ≤ maxDateTimeNs := by
  obtain ⟨h1, h2⟩ := h
  rw [minDateTimeNs_eq, maxDateTimeNs_eq]
  unfold epoch2001UnixNs
  unfold i64Min at h1
  unfold i64Max at h2
  omega

theorem checkedAddNs_of_i64 (d : Int) (h : i64Range d) :
    checkedAddNs epoch2001UnixNs d = some (epoch2001UnixNs + d) := by
  unfold checkedAddNs
  exact if_pos (add_epoch_in_range d h)

theorem processMsg_char (hmap : Int → Option String) (startNs endNs : Int) (ofm : Bool)
    (m : Message) (h : i64Range m.date) :
    processMsg hmap startNs endNs ofm m =
      if includeCond startNs endNs ofm m then .emitted (mkRecord hmap m) else .dropped := by
  unfold processMsg includeCond
  rw [checkedAddNs_of_i64 m.date h]
  cases ht : m.text_ok with
  | false => simp [ht]
  | true => simp [ht, mkRecord]

theorem resolveDates_fixed (s e : String) (n1 n2 n1' n2' : Int) :
    resolveDates (some s) (some e) n1 n2 = resolveDates (some s) (some e) n1' n2' := rfl

theorem resolveDates_error_of_malformed (sd ed : Option String) (n1 n2 : Int) (d : String)
    (hd : sd = some d ∨ ed = some d) (hp : ∃ e, parse_date d = .error e) :
    ∃ e, resolveDates sd ed n1 n2 = .error e := by
  obtain ⟨pe, hpe⟩ := hp
  cases hd with
  | inl h =>
    subst h
    have h1 : resolveStart (some d) n1 = .error pe := hpe
    exact ⟨pe, by unfold resolveDates; rw [h1]⟩
  | inr h =>
    subst h
    have h2 : resolveEnd (some d) n2 = .error pe := hpe
    cases hs : resolveStart sd n1 with
    | error e2 => exact ⟨e2, by unfold resolveDates; rw [hs]⟩
    | ok v => exact ⟨pe, by unfold resolveDates; rw [hs, h2]⟩

/-! ### Claim theorems -/

/-- Claim C4: for every resolved start or end instant whose signed 64-bit
nanosecond offset from the 2001-01-01T00:00:00Z reference epoch overflows,
the conversion yields offset 0 silently rather than an error or a crash. -/
theorem ns_overflow_to_zero (t : Int) (h : ¬ i64Range (t - epoch2001UnixNs)) :
    dateToNsOffset t = 0 := by
  unfold dateToNsOffset numNanoseconds
  unfold i64Range at h
  rw [if_neg h]
  rfl

theorem ns_overflow_to_zero_witness :
    ¬ i64Range (10201679236854775808 - epoch2001UnixNs) ∧
      dateToNsOffset 10201679236854775808 = 0 :=
  ⟨by decide, ns_overflow_to_zero 10201679236854775808 (by decide)⟩

/-- Claim C8: when start-date is absent the resolved start instant is the
current time minus 7 days, and when end-date is absent the resolved end
instant is the current time; when neither is supplied and the clock does not
run backwards between the two samples, the resolved start is at most the
resolved end. -/
theorem default_date_range (now1 now2 : Int) :
    resolveDates none none now1 now2 = .ok (now1 - 7 * nsPerDay, now2) ∧
      (now1 ≤ now2 → now1 - 7 * nsPerDay ≤ now2) := by
  refine ⟨rfl, fun h => ?_⟩
  unfold nsPerDay
  omega

theorem default_date_range_witness :
    resolveDates none none 1000 1005 = .ok (1000 - 7 * nsPerDay, 1005) ∧
      (1000 : Int) ≤ 1005 ∧ 1000 - 7 * nsPerDay ≤ 1005 :=
  ⟨(default_date_range 1000 1005).1, by decide,
    (default_date_range 1000 1005).2 (by decide)⟩

/-- Claim C10: when both date arguments are supplied, the run result is a
deterministic function of the database rows and the arguments alone — the
`Utc::now()` samples do not influence it. -/
theorem fixed_dates_deterministic (args : Args) (now1 now2 now1' now2' : Int)
    (conn : Except Unit Unit) (hrows : Except Unit (List (Option Handle)))
    (mrows : Except Unit (List (Except Unit Message))) (fsOk : Bool) (s e : String)
    (hs : args.start_date = some s) (he : args.end_date = some e) :
    mainRun args now1 now2 conn hrows mrows fsOk =
      mainRun args now1' now2' conn hrows mrows fsOk := by
  unfold mainRun
  rw [hs, he, resolveDates_fixed s e now1 now2 now1' now2']

theorem fixed_dates_deterministic_witness :
    (Args.mk "out.json" (some "2024-03-15") (some "2024-03-16") false).start_date
        = some "2024-03-15" ∧
    (Args.mk "out.json" (some "2024-03-15") (some "2024-03-16") false).end_date
        = some "2024-03-16" ∧
    mainRun (Args.mk "out.json" (some "2024-03-15") (some "2024-03-16") false)
        11 22 (.ok ()) (.ok []) (.ok []) true =
      mainRun (Args.mk "out.json" (some "2024-03-15") (some "2024-03-16") false)
        33 44 (.ok ()) (.ok []) (.ok []) true :=
  ⟨rfl, rfl,
    fixed_dates_deterministic _ 11 22 33 44 (.ok ()) (.ok []) (.ok []) true
      "2024-03-15" "2024-03-16" rfl rfl⟩

/-- Claim C3, counterexample: the malformed date string `"15-03-2024"` is
rejected, but the resulting argument-error message carries chrono's
parse-failure description ("trailing input"), not the offending input
string — `"15-03-2024"` does not occur in the message. -/
theorem parse_error_message_cex :
    parse_date "15-03-2024" =
      .error (AppError.Args "Invalid date format: trailing input. Expected YYYY-MM-DD") ∧
    ¬ ("15-03-2024".data <:+:
        "Invalid date format: trailing input. Expected YYYY-MM-DD".data) :=
  ⟨rfl, by decide⟩

/-- Claim C3, amended: for every supplied date string on which the
`YYYY-MM-DD` parse fails, date resolution fails with an argument error whose
message carries the parse-failure description and the expected format (not
the offending input string), and this error is fatal (an error value is
returned; no partial or best-effort parse is attempted). -/
theorem parse_error_message_amended (s : String) (e : ParseErr)
    (h : parseYMD s.data = .error e) :
    parse_date s =
      .error (AppError.Args
        ("Invalid date format: " ++ ParseErr.display e ++ ". Expected YYYY-MM-DD")) := by
  unfold parse_date
  rw [h]

theorem parse_error_message_amended_witness :
    parseYMD "2024/03/15".data = .error ParseErr.invalid ∧
    parse_date "2024/03/15" =
      .error (AppError.Args
        ("Invalid date format: " ++ ParseErr.display ParseErr.invalid ++
          ". Expected YYYY-MM-DD")) :=
  ⟨rfl, parse_error_message_amended "2024/03/15" ParseErr.invalid rfl⟩

/-- Claim C6: a run given a malformed date argument yields an error result
(hence a non-zero process exit) and performs no write to the output file: the
error occurs before the output file would be created, so the effect list is
empty. -/
theorem malformed_date_no_write (args : Args) (now1 now2 : Int)
    (conn : Except Unit Unit) (hrows : Except Unit (List (Option Handle)))
    (mrows : Except Unit (List (Except Unit Message))) (fsOk : Bool) (d : String)
    (hd : args.start_date = some d ∨ args.end_date = some d)
    (hp : ∃ e, parse_date d = .error e) :
    ∃ err, mainRun args now1 now2 conn hrows mrows fsOk = some (.error err, []) := by
  cases conn with
  | error u => exact ⟨AppError.Table, rfl⟩
  | ok u =>
    obtain ⟨e0, he0⟩ :=
      resolveDates_error_of_malformed args.start_date args.end_date now1 now2 d hd hp
    refine ⟨e0, ?_⟩
    unfold mainRun
    rw [he0]

theorem malformed_date_no_write_witness :
    ((Args.mk "out.json" (some "15-03-2024") none false).start_date = some "15-03-2024" ∨
      (Args.mk "out.json" (some "15-03-2024") none false).end_date = some "15-03-2024") ∧
    (∃ e, parse_date "15-03-2024" = .error e) ∧
    ∃ err,
      mainRun (Args.mk "out.json" (some "15-03-2024") none false) 0 0
          (.ok ()) (.ok []) (.ok []) true =
        some (.error err, []) :=
  ⟨Or.inl rfl,
    ⟨AppError.Args "Invalid date format: trailing input. Expected YYYY-MM-DD", rfl⟩,
    malformed_date_no_write _ 0 0 (.ok ()) (.ok []) (.ok []) true "15-03-2024"
      (Or.inl rfl)
      ⟨AppError.Args "Invalid date format: trailing input. Expected YYYY-MM-DD", rfl⟩⟩

/-- Claim C1: the output list is exactly the projection of those message rows
whose text decodes, whose raw nanosecond offset lies within
`[startNs, endNs]` (inclusive on both ends), and which pass the only-from-me
filter — so a record for a message appears in the output iff that condition
holds. -/
theorem output_filter_characterization (hmap : Int → Option String) (startNs endNs : Int)
    (ofm : Bool) (msgs : List Message) (h : ∀ m ∈ msgs, i64Range m.date) :
    processMessages hmap startNs endNs ofm (msgs.map Except.ok) =
      .ok ((msgs.filter (includeCond startNs endNs ofm)).map (mkRecord hmap)) := by
  induction msgs with
  | nil => rfl
  | cons m rest ih =>
    have hm : i64Range m.date := h m (List.mem_cons_self m rest)
    have hrest := ih (fun x hx => h x (List.mem_cons_of_mem m hx))
    simp only [List.map_cons, processMessages]
    rw [processMsg_char hmap startNs endNs ofm m hm]
    by_cases hc : includeCond startNs endNs ofm m
    · rw [if_pos hc, hrest, List.filter_cons_of_pos hc, List.map_cons]
    · rw [if_neg hc, hrest, List.filter_cons_of_neg hc]

theorem output_filter_characterization_witness :
    (∀ m ∈ [Message.mk 1 100 true (some "hi") true (some 5) (some "+15551234567"),
            Message.mk 2 5000 true (some "yo") false (some 5) (some "+15551234567")],
        i64Range m.date) ∧
    processMessages (fun _ => none) 0 1000 false
        ([Message.mk 1 100 true (some "hi") true (some 5) (some "+15551234567"),
          Message.mk 2 5000 true (some "yo") false (some 5) (some "+15551234567")].map
          Except.ok) =
      .ok (([Message.mk 1 100 true (some "hi") true (some 5) (some "+15551234567"),
             Message.mk 2 5000 true (some "yo") false (some 5) (some "+15551234567")].filter
              (includeCond 0 1000 false)).map (mkRecord (fun _ => none))) :=
  ⟨by decide,
    output_filter_characterization (fun _ => none) 0 1000 false
      [Message.mk 1 100 true (some "hi") true (some 5) (some "+15551234567"),
       Message.mk 2 5000 true (some "yo") false (some 5) (some "+15551234567")]
      (by decide)⟩

/-- Claim C2: every emitted record follows the direction rule — for an
owner-sent message `from` is `destination_caller_id` and `to` is the
handle-map lookup of `handle_id`; for a received message the two swap. -/
theorem direction_rule (hmap : Int → Option String) (startNs endNs : Int) (ofm : Bool)
    (m : Message) (r : OutputRecord)
    (h : processMsg hmap startNs endNs ofm m = .emitted r) :
    r.from' = (if m.is_from_me then m.destination_caller_id else m.handle_id.bind hmap) ∧
    r.to' = (if m.is_from_me then m.handle_id.bind hmap else m.destination_caller_id) := by
  unfold processMsg at h
  split at h
  · exact absurd h (by simp)
  · split at h
    · exact absurd h (by simp)
    · split at h
      · injection h with h2
        subst h2
        exact ⟨rfl, rfl⟩
      · exact absurd h (by simp)

theorem direction_rule_witness :
    processMsg (fun i => if i = 5 then some "+15559876543" else none) 0 1000 false
        (Message.mk 1 100 true (some "hi") true (some 5) (some "+15551234567")) =
      .emitted (OutputRecord.mk 1 978307200 (some "hi") (some "+15551234567")
        (some "+15559876543") true) ∧
    (OutputRecord.mk 1 978307200 (some "hi") (some "+15551234567")
        (some "+15559876543") true).from' =
      (if (Message.mk 1 100 true (some "hi") true (some 5)
          (some "+15551234567")).is_from_me then
        (Message.mk 1 100 true (some "hi") true (some 5)
          (some "+15551234567")).destination_caller_id
      else
        (Message.mk 1 100 true (some "hi") true (some 5)
          (some "+15551234567")).handle_id.bind
          (fun i => if i = 5 then some "+15559876543" else none)) ∧
    (OutputRecord.mk 1 978307200 (some "hi") (some "+15551234567")
        (some "+15559876543") true).to' =
      (if (Message.mk 1 100 true (some "hi") true (some 5)
          (some "+15551234567")).is_from_me then
        (Message.mk 1 100 true (some "hi") true (some 5)
          (some "+15551234567")).handle_id.bind
          (fun i => if i = 5 then some "+15559876543" else none)
      else
        (Message.mk 1 100 true (some "hi") true (some 5)
          (some "+15551234567")).destination_caller_id) :=
  ⟨rfl,
    (direction_rule (fun i => if i = 5 then some "+15559876543" else none) 0 1000 false
      (Message.mk 1 100 true (some "hi") true (some 5) (some "+15551234567"))
      (OutputRecord.mk 1 978307200 (some "hi") (some "+15551234567")
        (some "+15559876543") true) rfl).1,
    (direction_rule (fun i => if i = 5 then some "+15559876543" else none) 0 1000 false
      (Message.mk 1 100 true (some "hi") true (some 5) (some "+15551234567"))
      (OutputRecord.mk 1 978307200 (some "hi") (some "+15551234567")
        (some "+15559876543") true) rfl).2⟩

/-- Claim C7: an included message whose `handle_id` is absent from the handle
map (or absent altogether) is still emitted — resolution failure is never
fatal — and the corresponding endpoint (`to` for owner-sent, `from` for
received) is `none`. -/
theorem unresolved_handle_null (hmap : Int → Option String) (startNs endNs : Int)
    (ofm : Bool) (m : Message) (h64 : i64Range m.date) (ht : m.text_ok = true)
    (h1 : startNs ≤ m.date) (h2 : m.date ≤ endNs)
    (h3 : ofm = false ∨ m.is_from_me = true)
    (hnull : m.handle_id.bind hmap = none) :
    ∃ r, processMsg hmap startNs endNs ofm m = .emitted r ∧
      (if m.is_from_me then r.to' else r.from') = none := by
  have hc : includeCond startNs endNs ofm m = true := by
    unfold includeCond
    rcases h3 with h3 | h3 <;> simp [ht, h1, h2, h3]
  refine ⟨mkRecord hmap m, ?_, ?_⟩
  · rw [processMsg_char hmap startNs endNs ofm m h64, if_pos hc]
  · unfold mkRecord
    cases hf : m.is_from_me <;> simp [hf, hnull]

theorem unresolved_handle_null_witness :
    i64Range (Message.mk 3 200 true (some "hey") false (some 99) none).date ∧
    (Message.mk 3 200 true (some "hey") false (some 99) none).text_ok = true ∧
    (0 : Int) ≤ (Message.mk 3 200 true (some "hey") false (some 99) none).date ∧
    (Message.mk 3 200 true (some "hey") false (some 99) none).date ≤ 1000 ∧
    (false = false ∨ (Message.mk 3 200 true (some "hey") false (some 99) none).is_from_me
      = true) ∧
    (Message.mk 3 200 true (some "hey") false (some 99) none).handle_id.bind
      (fun _ => (none : Option String)) = none ∧
    ∃ r, processMsg (fun _ => (none : Option String)) 0 1000 false
          (Message.mk 3 200 true (some "hey") false (some 99) none) = .emitted r ∧
        (if (Message.mk 3 200 true (some "hey") false (some 99) none).is_from_me
          then r.to' else r.from') = none :=
  ⟨by decide, rfl, by decide, by decide, Or.inl rfl, rfl,
    unresolved_handle_null (fun _ => (none : Option String)) 0 1000 false
      (Message.mk 3 200 true (some "hey") false (some 99) none)
      (by decide) rfl (by decide) (by decide) (Or.inl rfl) rfl⟩

/-- Claim C9: for every message row whose raw offset is an `i64` value, the
absolute-timestamp computation `imessage_epoch + Duration::nanoseconds(date)`
— performed before the date-range filter, for dropped messages too — succeeds
without a panic, and the loop iteration never reaches the panic outcome. -/
theorem timestamp_add_no_panic (hmap : Int → Option String) (startNs endNs : Int)
    (ofm : Bool) (m : Message) (h : i64Range m.date) :
    checkedAddNs epoch2001UnixNs m.date = some (epoch2001UnixNs + m.date) ∧
    processMsg hmap startNs endNs ofm m ≠ .panic := by
  refine ⟨checkedAddNs_of_i64 m.date h, ?_⟩
  rw [processMsg_char hmap startNs endNs ofm m h]
  split <;> simp

theorem timestamp_add_no_panic_witness :
    i64Range (Message.mk 4 (-9223372036854775808) true none true none none).date ∧
    checkedAddNs epoch2001UnixNs
        (Message.mk 4 (-9223372036854775808) true none true none none).date =
      some (epoch2001UnixNs +
        (Message.mk 4 (-9223372036854775808) true none true none none).date) ∧
    processMsg (fun _ => none) 0 1000 true
        (Message.mk 4 (-9223372036854775808) true none true none none) ≠ .panic :=
  ⟨by decide,
    (timestamp_add_no_panic (fun _ => none) 0 1000 true
      (Message.mk 4 (-9223372036854775808) true none true none none) (by decide)).1,
    (timestamp_add_no_panic (fun _ => none) 0 1000 true
      (Message.mk 4 (-9223372036854775808) true none true none none) (by decide)).2⟩

/-! ### Digit-rendering lemmas for the `YYYY-MM-DD` round trip (claim C5) -/

theorem natDigitChar_isDigit (k : Nat) (h : k < 10) : (natDigitChar k).isDigit = true := by
  interval_cases k <;> decide

theorem natDigitChar_toNat (k : Nat) (h : k < 10) : (natDigitChar k).toNat = 48 + k := by
  interval_cases k <;> decide

theorem natDigitChar_not_ws (k : Nat) (h : k < 10) : rustIsWs (natDigitChar k) = false := by
  interval_cases k <;> decide

theorem natDigitChar_ne_minus (k : Nat) (h : k < 10) : natDigitChar k ≠ '-' := by
  interval_cases k <;> decide

theorem natDigitChar_ne_plus (k : Nat) (h : k < 10) : natDigitChar k ≠ '+' := by
  interval_cases k <;> decide

theorem padNum_succ_head (w n : Nat) :
    padNum (w+1) n = natDigitChar (n / 10^w % 10) :: padNum w n := rfl

theorem padNum_length (w : Nat) : ∀ n, (padNum w n).length = w := by
  induction w with
  | zero => intro n; rfl
  | succ w ih => intro n; simp [padNum_succ_head, ih]

theorem trimLeft_digit_head (c : Char) (s : List Char) (h : rustIsWs c = false) :
    trimLeft (c :: s) = c :: s := by
  simp [trimLeft, List.dropWhile_cons, h]

theorem trimLeft_padNum (w n : Nat) (hw : 0 < w) (rest : List Char) :
    trimLeft (padNum w n ++ rest) = padNum w n ++ rest := by
  cases w with
  | zero => omega
  | succ w =>
    rw [padNum_succ_head, List.cons_append,
      trimLeft_digit_head _ _ (natDigitChar_not_ws _ (Nat.mod_lt _ (by norm_num)))]

theorem nat_mod_pow_succ (n w : Nat) :
    (n % 10^(w+1) : Nat) = n % 10^w + 10^w * (n / 10^w % 10) := by
  rw [pow_succ, Nat.mod_mul]

theorem scanCore_padNum (w : Nat) : ∀ (n : Nat) (rest : List Char) (i mn : Nat) (acc : Int),
    0 ≤ acc → acc * (10:Int)^w + ((n % 10^w : Nat) : Int) ≤ i64Max →
    scanCore mn (padNum w n ++ rest) i w acc =
      .ok (rest, acc * (10:Int)^w + ((n % 10^w : Nat) : Int)) := by
  induction w with
  | zero =>
    intro n rest i mn acc h0 hle
    simp [padNum, scanCore, Nat.mod_one]
  | succ w ih =>
    intro n rest i mn acc h0 hle
    have hdlt : n / 10^w % 10 < 10 := Nat.mod_lt _ (by norm_num)
    have hkey : (acc * 10 + ((n / 10^w % 10 : Nat) : Int)) * (10:Int)^w +
        ((n % 10^w : Nat) : Int) =
        acc * (10:Int)^(w+1) + ((n % 10^(w+1) : Nat) : Int) := by
      rw [nat_mod_pow_succ]
      push_cast
      ring
    have hacc2 : (0:Int) ≤ acc * 10 + ((n / 10^w % 10 : Nat) : Int) := by positivity
    have hle2 : (acc * 10 + ((n / 10^w % 10 : Nat) : Int)) * (10:Int)^w +
        ((n % 10^w : Nat) : Int) ≤ i64Max := by rw [hkey]; exact hle
    rw [padNum_succ_head, List.cons_append, scanCore]
    rw [natDigitChar_isDigit _ hdlt]
    simp only [if_true]
    rw [natDigitChar_toNat _ hdlt, Nat.add_sub_cancel_left]
    have hnotlt : ¬ i64Max < acc * 10 + ((n / 10^w % 10 : Nat) : Int) := by
      have h1 : (1:Int) ≤ (10:Int)^w := one_le_pow₀ (by norm_num)
      have h2 : (0:Int) ≤ ((n % 10^w : Nat) : Int) := by positivity
      nlinarith [hle2, hacc2]
    rw [if_neg hnotlt]
    rw [ih n rest (i+1) mn _ hacc2 hle2]
    rw [hkey]

theorem scanNumber_padNum (w n : Nat) (rest : List Char) (hw : 0 < w)
    (hle : ((n % 10^w : Nat) : Int) ≤ i64Max) :
    scanNumber (padNum w n ++ rest) 1 (some w) = .ok (rest, ((n % 10^w : Nat) : Int)) := by
  unfold scanNumber
  have hlen : ¬ (padNum w n ++ rest).length < 1 := by
    simp [List.length_append, padNum_length]
    omega
  rw [if_neg hlen]
  have h := scanCore_padNum w n rest 0 1 0 le_rfl (by simpa using hle)
  simpa using h

theorem parseLit_minus (l : List Char) : parseLit '-' ('-' :: l) = .ok l := by
  simp [parseLit]

theorem parseYearField_fmt (y : Nat) (rest : List Char) (hy : y ≤ 9999) :
    parseYearField (padNum 4 y ++ rest) = .ok (rest, (y : Int)) := by
  have hd3 : y / 10^3 % 10 < 10 := Nat.mod_lt _ (by norm_num)
  have hcons : padNum 4 y ++ rest = natDigitChar (y / 10^3 % 10) :: (padNum 3 y ++ rest) := by
    rw [padNum_succ_head, List.cons_append]
  have hmod : y % 10^4 = y := Nat.mod_eq_of_lt (by omega)
  unfold parseYearField
  rw [trimLeft_padNum 4 y (by norm_num) rest, hcons]
  simp only
  rw [if_neg (natDigitChar_ne_minus _ hd3), if_neg (natDigitChar_ne_plus _ hd3), ← hcons]
  rw [scanNumber_padNum 4 y rest (by norm_num)
    (by rw [hmod]; unfold i64Max; exact_mod_cast by omega)]
  rw [hmod]

theorem daysInMonth_le (y m : Int) : daysInMonth y m ≤ 31 := by
  unfold daysInMonth
  split_ifs <;> norm_num

theorem parseFmtYMD_fmt (y m d : Nat) (hy : y ≤ 9999) (hm : m ≤ 99) (hd : d ≤ 99) :
    parseFmtYMD (fmtYMD y m d).data = .ok ((y : Int), (m : Int), (d : Int)) := by
  have hms : m % 10^2 = m := Nat.mod_eq_of_lt (by omega)
  have hds : d % 10^2 = d := Nat.mod_eq_of_lt (by omega)
  have hfmt : (fmtYMD y m d).data = padNum 4 y ++ ('-' :: (padNum 2 m ++ '-' :: padNum 2 d)) :=
    rfl
  rw [hfmt]
  unfold parseFmtYMD
  rw [parseYearField_fmt y _ hy]
  simp only
  have hrange : ¬ ((y : Int) < i32Min ∨ i32Max < (y : Int)) := by
    unfold i32Min i32Max
    omega
  rw [if_neg hrange]
  rw [parseLit_minus]
  simp only
  rw [trimLeft_padNum 2 m (by norm_num) _]
  rw [scanNumber_padNum 2 m _ (by norm_num)
    (by rw [hms]; unfold i64Max; exact_mod_cast by omega)]
  simp only
  rw [hms, parseLit_minus]
  simp only
  have hnil : padNum 2 d ++ ([] : List Char) = padNum 2 d := List.append_nil _
  rw [← hnil]
  rw [trimLeft_padNum 2 d (by norm_num) _]
  rw [scanNumber_padNum 2 d [] (by norm_num)
    (by rw [hds]; unfold i64Max; exact_mod_cast by omega)]
  simp only
  rw [hds]
  simp

/-- Claim C5: every string in strict zero-padded `YYYY-MM-DD` form denoting a
valid calendar date resolves to midnight UTC of that calendar day (the
embedding has no local time zone: the result is defined purely from the
calendar day). -/
theorem parse_date_valid_ymd (y m d : Nat) (hy : y ≤ 9999)
    (hv : fromYmdValid y m d = true) :
    parse_date (fmtYMD y m d) = .ok (midnightUtcNs y m d) := by
  have hv' := hv
  simp only [fromYmdValid, Bool.and_eq_true, decide_eq_true_eq] at hv'
  have hm99 : m ≤ 99 := by
    have := hv'.1.1.1.1.2
    omega
  have hd99 : d ≤ 99 := by
    have h31 := daysInMonth_le (y : Int) (m : Int)
    have := hv'.2
    omega
  have h1 := parseFmtYMD_fmt y m d hy hm99 hd99
  have h2 : parseYMD (fmtYMD y m d).data = .ok ((y : Int), (m : Int), (d : Int)) := by
    unfold parseYMD
    rw [h1]
    simp only
    rw [if_pos hv]
  unfold parse_date
  rw [h2]

theorem parse_date_valid_ymd_witness :
    2024 ≤ 9999 ∧ fromYmdValid 2024 3 15 = true ∧
    parse_date (fmtYMD 2024 3 15) = .ok (midnightUtcNs 2024 3 15) ∧
    fmtYMD 2024 3 15 = "2024-03-15" ∧
    midnightUtcNs 2024 3 15 = 1710460800 * 1000000000 :=
  ⟨by decide, by decide, parse_date_valid_ymd 2024 3 15 (by decide) (by decide),
    by decide, by decide⟩
